import Mathlib

/-!
Verification of `scrape_bids.py` (ElectriBid scraper).

A shallow embedding of the bid-scraper pipeline: the date normalizers
(`parse_date`, `is_future`), the four source extractors, the standing-entries
provider, and the aggregation step of `main` (status reclassification,
title-based deduplication, feed packaging).

Modelling conventions:
* Fetched HTML is represented post-parse: a table is a list of rows, a row a
  list of cells tagged with their element name, an anchor a `(href, text)`
  pair.  A cell's `text` field holds the value of `get_text(strip=True)` on
  that cell; a row's text is the join of its cells' non-empty texts, which
  matches BeautifulSoup's `get_text(sep, strip=True)` under the assumption
  that all of a row's text lives inside its cells.
* A fetch is represented by an `Option` input: `none` is a failed fetch
  (`safe_get` returned `ok = False`), `some` carries the parsed content.
* `datetime.now()` is an integer number of seconds (`now : Int`); a calendar
  date corresponds to the instant `dayNumber d * 86400` (its midnight), with
  `dayNumber` the civil day count from 1970-01-01.  The operator-visible
  strings `datetime.now().strftime("%Y-%m-%d")` and
  `datetime.now().isoformat()` are passed in as parameters `today` and `ts`.
* Python machine strings are Lean `String`s; Python `len` and slicing count
  code points, as Lean's `String.length` and `List.take` on `String.data` do.
-/

/-- Substring test: Python's `pat in s`. -/
def strContains (s pat : String) : Bool :=
  s.data.tails.any (fun t => pat.data.isPrefixOf t)

/-- Python truthiness for `x or y` on an optional string: `None` and `""` are
falsy. -/
def pyOrOpt (x : Option String) (y : String) : String :=
  match x with
  | none => y
  | some s => if s = "" then y else s

/-- Python truthiness for `x or y` on a string. -/
def pyOrS (x y : String) : String :=
  if x = "" then y else x

/-- Python slicing `s[:n]` (by code point, like Lean chars). -/
def pySlice (s : String) (n : Nat) : String :=
  String.mk (s.data.take n)

/-- Python `s.lower()` (ASCII case mapping suffices for the scraped text). -/
def pyLower (s : String) : String := String.mk (s.data.map Char.toLower)

/-- Python `s.upper()`. -/
def pyUpper (s : String) : String := String.mk (s.data.map Char.toUpper)

/-- Python `s.strip()`: remove leading and trailing whitespace. -/
def pyStrip (s : String) : String :=
  String.mk (((s.data.dropWhile Char.isWhitespace).reverse.dropWhile
    Char.isWhitespace).reverse)

/-! ## Dates

`datetime.strptime` is modelled format-by-format following CPython's
`_strptime` regexes: `%Y` is exactly four digits, `%m` and `%I` are
`1[0-2]|0[1-9]|[1-9]`, `%d` is `3[01]|[12]\d|0[1-9]|[1-9]`, `%y` is exactly
two digits (69–99 mapping to 19xx, otherwise 20xx), `%M` is `[0-5]\d|\d`,
`%p` matches AM/PM case-insensitively, month names match case-insensitively,
whitespace in the format matches one or more whitespace characters, and the
whole input must be consumed.  The `datetime` constructor's range validation
(year 1–9999, month 1–12, day within the month) is `mkDate`. -/

/-- A parsed calendar date. -/
structure Date where
  y : Nat
  m : Nat
  d : Nat
deriving DecidableEq

def digitVal (c : Char) : Nat := c.toNat - '0'.toNat

/-- Parse exactly `n` digits (CPython `%Y` uses `n = 4`, `%y` uses `n = 2`). -/
def parseNDigits : Nat → Nat → List Char → Option (Nat × List Char)
  | 0, acc, cs => some (acc, cs)
  | n + 1, acc, c :: cs =>
      if c.isDigit then parseNDigits n (acc * 10 + digitVal c) cs else none
  | _ + 1, _, [] => none

/-- CPython regex `1[0-2]|0[1-9]|[1-9]`, used for `%m` and `%I`. -/
def parseMonth : List Char → Option (Nat × List Char)
  | [] => none
  | c1 :: rest =>
    match rest with
    | c2 :: rest2 =>
      if c1 = '1' ∧ '0' ≤ c2 ∧ c2 ≤ '2' then some (10 + digitVal c2, rest2)
      else if c1 = '0' ∧ '1' ≤ c2 ∧ c2 ≤ '9' then some (digitVal c2, rest2)
      else if '1' ≤ c1 ∧ c1 ≤ '9' then some (digitVal c1, rest)
      else none
    | [] => if '1' ≤ c1 ∧ c1 ≤ '9' then some (digitVal c1, []) else none

/-- CPython regex `3[01]|[12]\d|0[1-9]|[1-9]`, used for `%d`. -/
def parseDay : List Char → Option (Nat × List Char)
  | [] => none
  | c1 :: rest =>
    match rest with
    | c2 :: rest2 =>
      if c1 = '3' ∧ '0' ≤ c2 ∧ c2 ≤ '1' then some (30 + digitVal c2, rest2)
      else if ('1' ≤ c1 ∧ c1 ≤ '2') ∧ c2.isDigit then
        some (digitVal c1 * 10 + digitVal c2, rest2)
      else if c1 = '0' ∧ '1' ≤ c2 ∧ c2 ≤ '9' then some (digitVal c2, rest2)
      else if '1' ≤ c1 ∧ c1 ≤ '9' then some (digitVal c1, rest)
      else none
    | [] => if '1' ≤ c1 ∧ c1 ≤ '9' then some (digitVal c1, []) else none

/-- CPython regex `[0-5]\d|\d`, used for `%M`. -/
def parseMinute : List Char → Option (Nat × List Char)
  | [] => none
  | c1 :: rest =>
    match rest with
    | c2 :: rest2 =>
      if ('0' ≤ c1 ∧ c1 ≤ '5') ∧ c2.isDigit then
        some (digitVal c1 * 10 + digitVal c2, rest2)
      else if c1.isDigit then some (digitVal c1, rest)
      else none
    | [] => if c1.isDigit then some (digitVal c1, []) else none

/-- `%p`: AM or PM, case-insensitive. -/
def parseAmPm : List Char → Option (List Char)
  | a :: b :: rest =>
      if (a.toLower = 'a' ∨ a.toLower = 'p') ∧ b.toLower = 'm' then some rest
      else none
  | _ => none

/-- Whitespace in a strptime format string matches one or more whitespace
characters of the input. -/
def skipWs1 : List Char → Option (List Char)
  | c :: cs => if c.isWhitespace then some (cs.dropWhile Char.isWhitespace) else none
  | [] => none

def isLeap (y : Nat) : Bool :=
  (y % 4 = 0 && y % 100 ≠ 0) || y % 400 = 0

def daysInMonth (y m : Nat) : Nat :=
  if m = 2 then (if isLeap y then 29 else 28)
  else if m = 4 ∨ m = 6 ∨ m = 9 ∨ m = 11 then 30
  else 31

/-- The `datetime(year, month, day)` constructor's validation. -/
def mkDate (y m d : Nat) : Option Date :=
  if 1 ≤ y ∧ y ≤ 9999 ∧ 1 ≤ m ∧ m ≤ 12 ∧ 1 ≤ d ∧ d ≤ daysInMonth y m then
    some ⟨y, m, d⟩
  else none

/-- Month names for `%B` (CPython matches them case-insensitively). -/
def monthNames : List (String × Nat) :=
  [("january", 1), ("february", 2), ("march", 3), ("april", 4), ("may", 5),
   ("june", 6), ("july", 7), ("august", 8), ("september", 9), ("october", 10),
   ("november", 11), ("december", 12)]

/-- Abbreviated month names for `%b`. -/
def monthAbbrevs : List (String × Nat) :=
  [("jan", 1), ("feb", 2), ("mar", 3), ("apr", 4), ("may", 5), ("jun", 6),
   ("jul", 7), ("aug", 8), ("sep", 9), ("oct", 10), ("nov", 11), ("dec", 12)]

def tryMonthName (cs : List Char) (nv : String × Nat) : Option (Nat × List Char) :=
  let n := nv.1.length
  if (cs.take n).map Char.toLower = nv.1.data then some (nv.2, cs.drop n) else none

def parseMonthByName (names : List (String × Nat)) (cs : List Char) :
    Option (Nat × List Char) :=
  names.findSome? (tryMonthName cs)

/-- Consume one literal character of the format string. -/
def expectChar (c : Char) : List Char → Option (List Char)
  | x :: rest => if x = c then some rest else none
  | [] => none

/-- Require the whole input to have been consumed (strptime rejects trailing
data). -/
def expectEnd : List Char → Option Unit
  | [] => some ()
  | _ :: _ => none

/-- Format `"%m/%d/%Y"`. -/
def fmt_mdY (cs : List Char) : Option Date :=
  (parseMonth cs).bind fun mr =>
  (expectChar '/' mr.2).bind fun r1 =>
  (parseDay r1).bind fun dr =>
  (expectChar '/' dr.2).bind fun r2 =>
  (parseNDigits 4 0 r2).bind fun yr =>
  (expectEnd yr.2).bind fun _ =>
  mkDate yr.1 mr.1 dr.1

/-- Format `"%m-%d-%Y"`. -/
def fmt_m_d_Y (cs : List Char) : Option Date :=
  (parseMonth cs).bind fun mr =>
  (expectChar '-' mr.2).bind fun r1 =>
  (parseDay r1).bind fun dr =>
  (expectChar '-' dr.2).bind fun r2 =>
  (parseNDigits 4 0 r2).bind fun yr =>
  (expectEnd yr.2).bind fun _ =>
  mkDate yr.1 mr.1 dr.1

/-- Formats `"%B %d, %Y"` and `"%b %d, %Y"`, parameterized by the name table. -/
def fmt_nameDY (names : List (String × Nat)) (cs : List Char) : Option Date :=
  (parseMonthByName names cs).bind fun mr =>
  (skipWs1 mr.2).bind fun r1 =>
  (parseDay r1).bind fun dr =>
  (expectChar ',' dr.2).bind fun r2 =>
  (skipWs1 r2).bind fun r3 =>
  (parseNDigits 4 0 r3).bind fun yr =>
  (expectEnd yr.2).bind fun _ =>
  mkDate yr.1 mr.1 dr.1

/-- Format `"%Y-%m-%d"` (also the canonical re-parse format of `is_future`
and the closing-soon check). -/
def fmt_Ymd (cs : List Char) : Option Date :=
  (parseNDigits 4 0 cs).bind fun yr =>
  (expectChar '-' yr.2).bind fun r1 =>
  (parseMonth r1).bind fun mr =>
  (expectChar '-' mr.2).bind fun r2 =>
  (parseDay r2).bind fun dr =>
  (expectEnd dr.2).bind fun _ =>
  mkDate yr.1 mr.1 dr.1

/-- Format `"%m/%d/%y"`; `%y` values 0–68 mean 2000–2068, 69–99 mean 1969–1999. -/
def fmt_mdy (cs : List Char) : Option Date :=
  (parseMonth cs).bind fun mr =>
  (expectChar '/' mr.2).bind fun r1 =>
  (parseDay r1).bind fun dr =>
  (expectChar '/' dr.2).bind fun r2 =>
  (parseNDigits 2 0 r2).bind fun yr =>
  (expectEnd yr.2).bind fun _ =>
  mkDate (if yr.1 ≤ 68 then 2000 + yr.1 else 1900 + yr.1) mr.1 dr.1

/-- Formats `"%m/%d/%Y %I:%M%p"` (`spaced = false`) and
`"%m/%d/%Y %I:%M %p"` (`spaced = true`); the time of day is validated and
discarded, since the scraper keeps only `strftime("%Y-%m-%d")`.  `%I` shares
`%m`'s regex. -/
def fmt_mdY_time (spaced : Bool) (cs : List Char) : Option Date :=
  (parseMonth cs).bind fun mr =>
  (expectChar '/' mr.2).bind fun r1 =>
  (parseDay r1).bind fun dr =>
  (expectChar '/' dr.2).bind fun r2 =>
  (parseNDigits 4 0 r2).bind fun yr =>
  (skipWs1 yr.2).bind fun r4 =>
  (parseMonth r4).bind fun ir =>
  (expectChar ':' ir.2).bind fun r5 =>
  (parseMinute r5).bind fun nr =>
  ((if spaced then skipWs1 nr.2 else some nr.2)).bind fun r7 =>
  (parseAmPm r7).bind fun r8 =>
  (expectEnd r8).bind fun _ =>
  mkDate yr.1 mr.1 dr.1

/-- The ordered format list of `parse_date`, applied to the stripped text:
first successful parse wins. -/
def tryFormats (cs : List Char) : Option Date :=
  fmt_mdY cs <|> fmt_m_d_Y cs <|> fmt_nameDY monthNames cs <|>
  fmt_nameDY monthAbbrevs cs <|> fmt_Ymd cs <|> fmt_mdy cs <|>
  fmt_mdY_time false cs <|> fmt_mdY_time true cs

/-- Zero-padded two-digit rendering (`strftime` `%m`, `%d`). -/
def padNum2 (n : Nat) : List Char :=
  [Nat.digitChar (n / 10 % 10), Nat.digitChar (n % 10)]

/-- Zero-padded four-digit rendering (`strftime` `%Y` for years in range). -/
def padNum4 (n : Nat) : List Char :=
  [Nat.digitChar (n / 1000 % 10), Nat.digitChar (n / 100 % 10),
   Nat.digitChar (n / 10 % 10), Nat.digitChar (n % 10)]

/-- `strftime("%Y-%m-%d")`. -/
def fmtISO (dt : Date) : String :=
  String.mk (padNum4 dt.y ++ '-' :: padNum2 dt.m ++ '-' :: padNum2 dt.d)

/-- `parse_date(text)`: strip, try the eight formats in order, and render the
first successful parse as `YYYY-MM-DD`. -/
def parse_date (text : String) : Option String :=
  (tryFormats (pyStrip text).data).map fmtISO

/-- `datetime.strptime(s, "%Y-%m-%d")`, the re-parse used by `is_future` and
the closing-soon check. -/
def strptime_Ymd (s : String) : Option Date :=
  fmt_Ymd s.data

/-- Civil day number of a date relative to 1970-01-01 (midnight of the date
as `datetime` orders instants). -/
def dayNumber (dt : Date) : Int :=
  let y : Int := if dt.m ≤ 2 then (dt.y : Int) - 1 else (dt.y : Int)
  let era : Int := y.fdiv 400
  let yoe : Int := y - era * 400
  let mp : Int := ((dt.m : Int) + 9) % 12
  let doy : Int := (153 * mp + 2).fdiv 5 + (dt.d : Int) - 1
  let doe : Int := yoe * 365 + yoe.fdiv 4 - yoe.fdiv 100 + doy
  era * 146097 + doe - 719468

/-- The number of seconds of a date's midnight instant. -/
def dateSec (dt : Date) : Int := dayNumber dt * 86400

/-- `is_future(date_str)`: `None`/empty input is kept; an unparseable string
is kept; a parseable date is kept iff its midnight is strictly after `now`. -/
def is_future (now : Int) (date_str : Option String) : Bool :=
  match date_str with
  | none => true
  | some s =>
    if s = "" then true
    else
      match strptime_Ymd s with
      | none => true
      | some dt => decide (dateSec dt > now)

/-! ## HTML model and bid records -/

/-- A table cell (or other row child): its element tag and the value of
`get_text(strip=True)` on it. -/
structure Cell where
  tag : String
  text : String
deriving DecidableEq

/-- A table row, as the list of its cells. -/
abbrev Row := List Cell

/-- A table, as the list of its rows (`find_all("tr")`). -/
abbrev Table := List Row

/-- An anchor with an `href` attribute: `(href, get_text(strip=True))`. -/
structure Link where
  href : String
  text : String
deriving DecidableEq

/-- `row.get_text(sep, strip=True)`: the row's non-empty cell texts joined
with `sep`. -/
def rowFullText (sep : String) (row : Row) : String :=
  String.intercalate sep ((row.map (fun c => c.text)).filter (fun s => s ≠ ""))

/-- One output record, with the field names of the scraper's dicts. -/
structure Bid where
  title : String
  sub : String
  location : String
  state : String
  status : String
  deadline : String
  value : String
  valueSortable : Nat
  posted : String
  source : String
  url : String
  drawings : String
  drawingsNote : String
deriving DecidableEq

/-! ## Source extractors

Each extractor takes `now` (seconds), `today` (the run day rendered
`YYYY-MM-DD`, i.e. `datetime.now().strftime("%Y-%m-%d")`, used for `posted`),
and its fetched content (`none` = fetch failure). -/

/-- The regex `re.match(r'(P\d+)\s*[–-]\s*(.*)', text)` of `scrape_umich`:
on success, group 1 (`P` plus digits) and group 2 (the rest of the first
line, `.` not matching newlines). -/
def matchPNum (text : String) : Option (String × String) :=
  match text.data with
  | 'P' :: rest =>
    let ds := rest.takeWhile Char.isDigit
    if ds.isEmpty then none
    else
      match (rest.drop ds.length).dropWhile Char.isWhitespace with
      | c :: r2 =>
        if c = '–' ∨ c = '-' then
          some (String.mk ('P' :: ds),
                String.mk ((r2.dropWhile Char.isWhitespace).takeWhile (fun ch => ch ≠ '\n')))
        else none
      | [] => none
  | _ => none

/-- The body of `scrape_umich`'s row loop: `none` when the row is skipped. -/
def umich_row (now : Int) (today : String) (row : Row) : Option Bid :=
  let cells := row.filter (fun c => c.tag = "td" ∨ c.tag = "th")
  match cells with
  | c0 :: _ :: _ =>
    let text := c0.text
    if text = "" ∨ (strContains text "Project" ∧ strContains text "Name") then none
    else
      let full_text := pyLower (rowFullText "" row)
      if strContains full_text "awarded" then none
      else
        let pn := match matchPNum text with
          | none => ("", text)
          | some (p, t) => (p, pyStrip t)
        let deadline_text := ((cells.getLast?).map Cell.text).getD ""
        let deadline := parse_date deadline_text
        if is_future now deadline then
          let sub := (if pn.1 ≠ "" then pn.1 ++ " · " else "") ++
            "University of Michigan construction project"
          some { title := pn.2, sub := sub, location := "Ann Arbor", state := "MI",
                 status := "open", deadline := pyOrOpt deadline "TBD",
                 value := "See Bid Docs", valueSortable := 0, posted := today,
                 source := "U-M AEC",
                 url := "https://umaec.umich.edu/for-vendors/bids-proposals/",
                 drawings := "reg",
                 drawingsNote := "BuildingConnected — vendor registration required" }
        else none
  | _ => none

/-- `scrape_umich`: a failed fetch returns the empty list; otherwise every
table row is run through `umich_row` in order. -/
def scrape_umich (now : Int) (today : String) (input : Option (List Table)) :
    List Bid :=
  match input with
  | none => []
  | some tables => tables.flatMap (fun t => t.filterMap (umich_row now today))

/-- The keyword list of `scrape_mdot_lettings`' row filter. -/
def mdot_keywords : List String :=
  ["signal", "electric", "lighting", "illumin", "its ", "traffic"]

/-- The first future-parseable date among a row's cells. -/
def firstDeadline (now : Int) (cells : List Cell) : Option String :=
  cells.findSome? (fun c =>
    match parse_date c.text with
    | some d => if d ≠ "" ∧ is_future now (some d) then some d else none
    | none => none)

/-- The body of `scrape_mdot_lettings`' row loop. -/
def mdot_row (now : Int) (today : String) (row : Row) : Option Bid :=
  let cells := row.filter (fun c => c.tag = "td")
  match cells with
  | c0 :: _ :: _ =>
    let text := pyLower (rowFullText " " row)
    if mdot_keywords.any (fun kw => strContains text kw) then
      some { title := pySlice c0.text 100,
             sub := "MDOT highway electrical / signalization project",
             location := "Michigan", state := "MI", status := "open",
             deadline := pyOrOpt (firstDeadline now cells) "Varies",
             value := "See Bid Docs", valueSortable := 0, posted := today,
             source := "MDOT Bid Letting",
             url := "https://www.michigan.gov/mdot/business/contractors/bid-letting",
             drawings := "yes",
             drawingsNote := "Full plans & specs on Bid Express — free download" }
    else none
  | _ => none

/-- The fallback record `scrape_mdot_lettings` returns when the fetch fails. -/
def mdot_fb_fetch (today : String) : Bid :=
  { title := "MDOT 2026 Signalization & Electrical — Statewide Lettings",
    sub := "Multiple traffic signalization, highway lighting, and ITS electrical projects across Michigan",
    location := "Statewide", state := "MI", status := "open",
    deadline := "Varies", value := "$1M–$5M", valueSortable := 5000000,
    posted := today, source := "MDOT Bid Letting",
    url := "https://www.michigan.gov/mdot/business/contractors/bid-letting",
    drawings := "yes",
    drawingsNote := "Full plans & specs on Bid Express — free download" }

/-- The standing record `scrape_mdot_lettings` appends when the scrape found
nothing specific. -/
def mdot_fb_empty (today : String) : Bid :=
  { title := "MDOT 2026 Signalization & Electrical — Statewide Lettings",
    sub := "Multiple traffic signalization, highway lighting, and ITS projects — check Bid Express for current listings",
    location := "Statewide", state := "MI", status := "open",
    deadline := "Varies", value := "$1M–$5M", valueSortable := 5000000,
    posted := today, source := "MDOT Bid Letting",
    url := "https://www.michigan.gov/mdot/business/contractors/bid-letting",
    drawings := "yes",
    drawingsNote := "Full plans & specs on Bid Express — free download" }

/-- `scrape_mdot_lettings`. -/
def scrape_mdot_lettings (now : Int) (today : String)
    (input : Option (List Table)) : List Bid :=
  match input with
  | none => [mdot_fb_fetch today]
  | some tables =>
    let bids := tables.flatMap (fun t => t.filterMap (mdot_row now today))
    if bids.isEmpty then [mdot_fb_empty today] else bids

/-- The body of `scrape_ofcc_ohio`'s link loop (bids & RFQs page). -/
def ofcc_link (today : String) (l : Link) : Option Bid :=
  if strContains (pyUpper l.href) "SOL-" ∨ strContains (pyUpper l.text) "BID" then
    some { title := pyOrS (pySlice l.text 120) "OFCC Construction Bid",
           sub := "Ohio Facilities Construction Commission solicitation",
           location := "Ohio", state := "OH", status := "open",
           deadline := "See Document", value := "See Bid Docs",
           valueSortable := 0, posted := today, source := "OFCC / Bid Express",
           url := "https://ofcc.ohio.gov/project-opportunities/bids-rfqs",
           drawings := "yes",
           drawingsNote := "Available on ofcc.ohio.gov and Bid Express" }
  else none

/-- The body of `scrape_ofcc_ohio`'s public-notices row loop. -/
def ofcc_row (today : String) (row : Row) : Option Bid :=
  let cells := row.filter (fun c => c.tag = "td")
  match cells with
  | c0 :: _ :: _ =>
    let title := c0.text
    if title ≠ "" ∧ title.length > 5 then
      some { title := pySlice title 120,
             sub := "OFCC public notice — may include electrical scope",
             location := "Ohio", state := "OH", status := "open",
             deadline := "See Document", value := "See Bid Docs",
             valueSortable := 0, posted := today, source := "OFCC / Bid Express",
             url := "https://ofcc.ohio.gov/project-opportunities/public-notices",
             drawings := "yes",
             drawingsNote := "Bid Express — free download after registration" }
    else none
  | _ => none

/-- `scrape_ofcc_ohio`: a failed first fetch returns the empty list before the
public-notices page is consulted; otherwise link records, then (if the second
fetch succeeded) row records of each table with the header row skipped. -/
def scrape_ofcc_ohio (today : String) (in1 : Option (List Link))
    (in2 : Option (List Table)) : List Bid :=
  match in1 with
  | none => []
  | some links =>
    let bids := links.filterMap (ofcc_link today)
    let more := match in2 with
      | none => []
      | some tables => tables.flatMap (fun t => (t.drop 1).filterMap (ofcc_row today))
    bids ++ more

/-- The keyword list of `scrape_odot`'s link filter. -/
def odot_keywords : List String := ["letting", "schedule", "advertisement"]

/-- The body of `scrape_odot`'s link loop. -/
def odot_link (today : String) (l : Link) : Option Bid :=
  let text := pyLower l.text
  if odot_keywords.any (fun kw => strContains text kw) then
    some { title := "ODOT Letting — " ++ pySlice l.text 80,
           sub := "Ohio DOT construction letting — check for electrical/signalization scope",
           location := "Statewide", state := "OH", status := "open",
           deadline := "See Schedule", value := "See Bid Docs",
           valueSortable := 0, posted := today, source := "ODOT Bid Letting",
           url := "https://www.dot.state.oh.us/Divisions/ContractAdmin/Contracts/Pages/default.aspx",
           drawings := "yes", drawingsNote := "ODOT eProposal and Bid Express" }
  else none

/-- The fallback record `scrape_odot` returns when the fetch fails. -/
def odot_fb_fetch (today : String) : Bid :=
  { title := "ODOT 2026 Statewide Highway Electrical Lettings",
    sub := "Multiple lighting, signalization, and ITS electrical projects across Ohio DOT districts",
    location := "Statewide", state := "OH", status := "open",
    deadline := "Varies", value := "$1M–$5M", valueSortable := 5000000,
    posted := today, source := "ODOT Bid Letting",
    url := "https://www.dot.state.oh.us/Divisions/ContractAdmin/Contracts/Pages/default.aspx",
    drawings := "yes",
    drawingsNote := "Full plans via ODOT eProposal and Bid Express" }

/-- The standing record `scrape_odot` appends when no link matched. -/
def odot_fb_empty (today : String) : Bid :=
  { title := "ODOT 2026 Statewide Highway Electrical Lettings",
    sub := "Multiple lighting, signalization, and ITS electrical projects — check Bid Express for current listings",
    location := "Statewide", state := "OH", status := "open",
    deadline := "Varies", value := "$1M–$5M", valueSortable := 5000000,
    posted := today, source := "ODOT Bid Letting",
    url := "https://www.dot.state.oh.us/Divisions/ContractAdmin/Contracts/Pages/default.aspx",
    drawings := "yes",
    drawingsNote := "Full plans via ODOT eProposal and Bid Express" }

/-- `scrape_odot`. -/
def scrape_odot (today : String) (input : Option (List Link)) : List Bid :=
  match input with
  | none => [odot_fb_fetch today]
  | some links =>
    let bids := links.filterMap (odot_link today)
    if bids.isEmpty then [odot_fb_empty today] else bids

/-- `get_standing_entries`: the six hand-curated login-gated sources. -/
def get_standing_entries (today : String) : List Bid :=
  [ { title := "Michigan DTMB — State Facility Electrical Projects",
      sub := "DTMB Design & Construction capital improvement projects — browse SIGMA VSS for current listings",
      location := "Lansing / Various", state := "MI", status := "open",
      deadline := "Varies", value := "$500K–$2M", valueSortable := 2000000,
      posted := today, source := "DTMB SIGMA VSS",
      url := "https://www.michigan.gov/dtmb/procurement/design-and-construction",
      drawings := "reg", drawingsNote := "SIGMA VSS — vendor registration required" },
    { title := "MSU Capital Projects — Electrical & Building Systems",
      sub := "Michigan State University IPF construction bids — check Plan Room for current listings",
      location := "East Lansing", state := "MI", status := "open",
      deadline := "Varies", value := "$200K–$2M+", valueSortable := 2000000,
      posted := today, source := "MSU IPF Plan Room",
      url := "https://ipf.msu.edu/plan-room", drawings := "reg",
      drawingsNote := "MSU Plan Room — Bid Manager registration required" },
    { title := "MITN Local Government Electrical — Multiple MI Municipalities",
      sub := "Aggregated electrical bids from ~200 Michigan local governments incl. schools & utilities",
      location := "Various", state := "MI", status := "open",
      deadline := "Varies", value := "$50K–$1M+", valueSortable := 1000000,
      posted := today, source := "BidNet / MITN",
      url := "https://www.bidnetdirect.com/mitn", drawings := "reg",
      drawingsNote := "Varies by agency — most require BidNet login" },
    { title := "Ohio State University — Campus Electrical & Infrastructure",
      sub := "OSU Facilities Operations capital projects — browse Bid Express for current listings",
      location := "Columbus", state := "OH", status := "open",
      deadline := "Varies", value := "$1M–$5M", valueSortable := 5000000,
      posted := today, source := "OSU / Bid Express",
      url := "https://fod.osu.edu/resources", drawings := "reg",
      drawingsNote := "Bid Express — free vendor registration required" },
    { title := "Franklin County — Public Works Electrical Projects",
      sub := "County construction bids incl. electrical, lighting, and building systems — Columbus metro",
      location := "Columbus", state := "OH", status := "open",
      deadline := "Varies", value := "$200K–$2M", valueSortable := 2000000,
      posted := today, source := "Franklin County",
      url := "https://bids.franklincountyohio.gov/", drawings := "tbd",
      drawingsNote := "Obtain at county office (373 S. High St) or per ad" },
    { title := "Ohio Purchasing Group — Statewide Local Electrical Bids",
      sub := "Aggregated state and local government electrical RFPs and bids across Ohio municipalities",
      location := "Various", state := "OH", status := "open",
      deadline := "Varies", value := "$50K–$1M+", valueSortable := 1000000,
      posted := today, source := "BidNet / Ohio",
      url := "https://www.bidnetdirect.com/ohio", drawings := "reg",
      drawingsNote := "Varies by agency — most require BidNet registration" } ]

/-! ## Aggregation (`main`) -/

/-- The sentinel deadlines, in the order of `main`'s tuple. -/
def sentinels : List String := ["Varies", "TBD", "See Document", "See Schedule"]

/-- Python's `(dl - datetime.now()).days`: the floored day count from `now`
to the deadline's midnight (`timedelta.days` floors). -/
def daysUntil (now : Int) (dt : Date) : Int :=
  (dateSec dt - now).fdiv 86400

/-- The closing-soon reclassification of `main`: non-sentinel deadlines that
re-parse as `YYYY-MM-DD` and lie at most 14 days (floored) ahead switch the
status to `closing`; parse failures are swallowed. -/
def markClosing (now : Int) (b : Bid) : Bid :=
  if b.deadline ∈ sentinels then b
  else
    match strptime_Ymd b.deadline with
    | none => b
    | some dt =>
      if daysUntil now dt ≤ 14 then { b with status := "closing" }
      else b

/-- The dedup key: `bid["title"].lower().strip()`. -/
def normTitle (b : Bid) : String := pyStrip (pyLower b.title)

/-- `main`'s dedup loop, with the `seen` set as the list of keys added so far. -/
def dedupAux : List String → List Bid → List Bid
  | _, [] => []
  | seen, b :: rest =>
    if normTitle b ∈ seen then dedupAux seen rest
    else b :: dedupAux (normTitle b :: seen) rest

/-- Deduplicate by normalized title, first occurrence winning. -/
def dedupBids (l : List Bid) : List Bid := dedupAux [] l

/-- The published artifact's top-level contents. -/
structure Feed where
  last_updated : String
  sources_checked : List String
  bids : List Bid
deriving DecidableEq

/-- The fixed `sources_checked` list of `main`. -/
def sources_checked_list : List String :=
  [ "U-M AEC (umaec.umich.edu)",
    "MDOT Bid Letting (michigan.gov/mdot)",
    "DTMB SIGMA VSS (michigan.gov/dtmb)",
    "MSU IPF Plan Room (ipf.msu.edu)",
    "BidNet / MITN (bidnetdirect.com/mitn)",
    "OFCC Bids & RFQs (ofcc.ohio.gov)",
    "OFCC Public Notices (ofcc.ohio.gov)",
    "ODOT Contract Admin (dot.state.oh.us)",
    "OSU Bid Express (fod.osu.edu)",
    "Franklin County (bids.franklincountyohio.gov)",
    "BidNet / Ohio (bidnetdirect.com/ohio)" ]

/-- The pure core of `main`: concatenate the four extractor outputs and the
standing entries, reclassify closing-soon statuses, deduplicate by title,
and package the feed.  `ts` is `datetime.now().isoformat()`. -/
def main_feed (now : Int) (ts today : String) (u : Option (List Table))
    (m : Option (List Table)) (o1 : Option (List Link))
    (o2 : Option (List Table)) (od : Option (List Link)) : Feed :=
  let all_bids :=
    scrape_umich now today u ++ scrape_mdot_lettings now today m ++
    scrape_ofcc_ohio today o1 o2 ++ scrape_odot today od ++
    get_standing_entries today
  let marked := all_bids.map (markClosing now)
  { last_updated := ts, sources_checked := sources_checked_list,
    bids := dedupBids marked }

/-! ## JSON view

The serialized shape of the artifact: dict keys in their insertion order in
the source. -/

inductive Jv where
  | str (s : String)
  | num (n : Nat)
  | arr (l : List Jv)
  | obj (l : List (String × Jv))

/-- The key-value pairs of one bid dict, in source order. -/
def Bid.toJson (b : Bid) : List (String × Jv) :=
  [("title", .str b.title), ("sub", .str b.sub), ("location", .str b.location),
   ("state", .str b.state), ("status", .str b.status),
   ("deadline", .str b.deadline), ("value", .str b.value),
   ("valueSortable", .num b.valueSortable), ("posted", .str b.posted),
   ("source", .str b.source), ("url", .str b.url),
   ("drawings", .str b.drawings), ("drawingsNote", .str b.drawingsNote)]

/-- The key-value pairs of the output dict, in source order. -/
def Feed.toJson (f : Feed) : List (String × Jv) :=
  [("last_updated", .str f.last_updated),
   ("sources_checked", .arr (f.sources_checked.map .str)),
   ("bids", .arr (f.bids.map (fun b => .obj b.toJson)))]

/-! ## Deduplication lemmas -/

/-- Modelled from the spec's words (for comparison with the code's dedup
loop): keep the first occurrence of each normalized title, dropping every
later record whose normalized title already occurred. -/
def specDedup : List Bid → List Bid
  | [] => []
  | b :: rest =>
    b :: specDedup (rest.filter (fun c => decide (normTitle c ≠ normTitle b)))
termination_by l => l.length
decreasing_by
  simpa using Nat.lt_succ_of_le (List.length_filter_le _ rest)

theorem specDedup_sublist (l : List Bid) : List.Sublist (specDedup l) l := by
  induction l using specDedup.induct with
  | case1 => simp [specDedup]
  | case2 b rest ih =>
    rw [specDedup]
    exact List.Sublist.cons₂ b (ih.trans (List.filter_sublist rest))

theorem specDedup_pairwise (l : List Bid) :
    (specDedup l).Pairwise (fun a b => normTitle a ≠ normTitle b) := by
  induction l using specDedup.induct with
  | case1 => rw [specDedup]; exact List.Pairwise.nil
  | case2 b rest ih =>
    rw [specDedup]
    refine List.Pairwise.cons (fun c hc => ?_) ih
    have hc2 : c ∈ rest.filter (fun c => decide (normTitle c ≠ normTitle b)) :=
      (specDedup_sublist _).subset hc
    have h3 : normTitle c ≠ normTitle b := by
      have := List.of_mem_filter hc2
      simpa using this
    exact fun he => h3 he.symm

theorem specDedup_of_pairwise {l : List Bid}
    (h : l.Pairwise (fun a b => normTitle a ≠ normTitle b)) : specDedup l = l := by
  induction l using specDedup.induct with
  | case1 => rw [specDedup]
  | case2 b rest ih =>
    rw [List.pairwise_cons] at h
    have hf : rest.filter (fun c => decide (normTitle c ≠ normTitle b)) = rest :=
      List.filter_eq_self.mpr (fun c hc => by
        have := h.1 c hc
        simpa using fun he => this he.symm)
    have h2 := ih (hf.symm ▸ h.2)
    rw [specDedup, h2, hf]

theorem specDedup_idem (l : List Bid) : specDedup (specDedup l) = specDedup l :=
  specDedup_of_pairwise (specDedup_pairwise l)

theorem dedupAux_eq (seen : List String) (l : List Bid) :
    dedupAux seen l =
      specDedup (l.filter (fun b => decide (normTitle b ∉ seen))) := by
  induction l generalizing seen with
  | nil => simp [dedupAux, specDedup]
  | cons b rest ih =>
    by_cases h : normTitle b ∈ seen
    · rw [dedupAux, if_pos h, List.filter_cons_of_neg (by simpa using h)]
      exact ih seen
    · rw [dedupAux, if_neg h, List.filter_cons_of_pos (by simpa using h),
        specDedup, ih (normTitle b :: seen), List.filter_filter]
      refine congrArg (fun t => b :: specDedup t) (List.filter_congr ?_)
      intro x _
      by_cases h1 : normTitle x = normTitle b <;> by_cases h2 : normTitle x ∈ seen <;>
        simp [h1, h2]

theorem dedupBids_eq_specDedup (l : List Bid) : dedupBids l = specDedup l := by
  rw [dedupBids, dedupAux_eq]
  congr 1
  exact List.filter_eq_self.mpr (fun c _ => by simp)

theorem dedupBids_sublist (l : List Bid) : List.Sublist (dedupBids l) l := by
  rw [dedupBids_eq_specDedup]; exact specDedup_sublist l

/-! ## Canonicality of `parse_date` output

Every successful `parse_date` passes `datetime`'s validation (`mkDate`), and
its `strftime("%Y-%m-%d")` rendering re-parses under `"%Y-%m-%d"` to the same
date.  This is what makes the future-date filter and the closing-soon check
agree with the dates the extractors store. -/

/-- Validity as enforced by the `datetime` constructor. -/
def ValidDate (dt : Date) : Prop :=
  1 ≤ dt.y ∧ dt.y ≤ 9999 ∧ 1 ≤ dt.m ∧ dt.m ≤ 12 ∧ 1 ≤ dt.d ∧
    dt.d ≤ daysInMonth dt.y dt.m

theorem mkDate_valid {y m d : Nat} {dt : Date} (h : mkDate y m d = some dt) :
    ValidDate dt := by
  unfold mkDate at h
  split at h
  · cases h
    assumption
  · cases h

theorem daysInMonth_le (y m : Nat) : daysInMonth y m ≤ 31 := by
  unfold daysInMonth
  split_ifs <;> omega

theorem isDigit_digitChar (k : Nat) (h : k < 10) : (Nat.digitChar k).isDigit = true := by
  interval_cases k <;> decide

theorem digitVal_digitChar (k : Nat) (h : k < 10) : digitVal (Nat.digitChar k) = k := by
  interval_cases k <;> decide

theorem parseNDigits_succ_cons (n acc : Nat) (c : Char) (cs : List Char) :
    parseNDigits (n + 1) acc (c :: cs) =
      if c.isDigit then parseNDigits n (acc * 10 + digitVal c) cs else none := rfl

theorem parseNDigits_zero (acc : Nat) (cs : List Char) :
    parseNDigits 0 acc cs = some (acc, cs) := rfl

theorem parseNDigits4_pad (y : Nat) (h : y < 10000) (rest : List Char) :
    parseNDigits 4 0 (padNum4 y ++ rest) = some (y, rest) := by
  have h1 : y / 1000 % 10 < 10 := Nat.mod_lt _ (by omega)
  have h2 : y / 100 % 10 < 10 := Nat.mod_lt _ (by omega)
  have h3 : y / 10 % 10 < 10 := Nat.mod_lt _ (by omega)
  have h4 : y % 10 < 10 := Nat.mod_lt _ (by omega)
  rw [padNum4, List.cons_append, List.cons_append, List.cons_append,
    List.cons_append, List.nil_append,
    parseNDigits_succ_cons, if_pos (isDigit_digitChar _ h1), digitVal_digitChar _ h1,
    parseNDigits_succ_cons, if_pos (isDigit_digitChar _ h2), digitVal_digitChar _ h2,
    parseNDigits_succ_cons, if_pos (isDigit_digitChar _ h3), digitVal_digitChar _ h3,
    parseNDigits_succ_cons, if_pos (isDigit_digitChar _ h4), digitVal_digitChar _ h4,
    parseNDigits_zero]
  have he : (((0 * 10 + y / 1000 % 10) * 10 + y / 100 % 10) * 10 + y / 10 % 10) * 10 +
      y % 10 = y := by omega
  rw [he]

theorem parseMonth_pad (m : Nat) (h1 : 1 ≤ m) (h2 : m ≤ 12) (rest : List Char) :
    parseMonth (padNum2 m ++ rest) = some (m, rest) := by
  interval_cases m <;> rfl

theorem parseDay_pad (d : Nat) (h1 : 1 ≤ d) (h2 : d ≤ 31) (rest : List Char) :
    parseDay (padNum2 d ++ rest) = some (d, rest) := by
  interval_cases d <;> rfl

theorem strptime_fmtISO {dt : Date} (h : ValidDate dt) :
    strptime_Ymd (fmtISO dt) = some dt := by
  obtain ⟨y, m, d⟩ := dt
  simp only [ValidDate] at h
  obtain ⟨hy1, hy2, hm1, hm2, hd1, hd2⟩ := h
  have hd31 : d ≤ 31 := hd2.trans (daysInMonth_le y m)
  have hdata : (fmtISO ⟨y, m, d⟩).data =
      padNum4 y ++ '-' :: (padNum2 m ++ '-' :: (padNum2 d ++ [])) := by
    simp [fmtISO]
  rw [strptime_Ymd, hdata, fmt_Ymd,
    parseNDigits4_pad y (by omega), Option.some_bind]
  show ((expectChar '-' _).bind _) = _
  rw [expectChar, if_pos rfl, Option.some_bind,
    parseMonth_pad m hm1 hm2, Option.some_bind]
  show ((expectChar '-' _).bind _) = _
  rw [expectChar, if_pos rfl, Option.some_bind,
    parseDay_pad d hd1 hd31, Option.some_bind]
  show ((expectEnd []).bind _) = _
  rw [expectEnd, Option.some_bind, mkDate, if_pos ⟨hy1, hy2, hm1, hm2, hd1, hd2⟩]

theorem fmt_mdY_valid {cs : List Char} {dt : Date} (h : fmt_mdY cs = some dt) :
    ValidDate dt := by
  simp only [fmt_mdY, Option.bind_eq_some] at h
  obtain ⟨_, _, _, _, _, _, _, _, _, _, _, _, hmk⟩ := h
  exact mkDate_valid hmk

theorem fmt_m_d_Y_valid {cs : List Char} {dt : Date} (h : fmt_m_d_Y cs = some dt) :
    ValidDate dt := by
  simp only [fmt_m_d_Y, Option.bind_eq_some] at h
  obtain ⟨_, _, _, _, _, _, _, _, _, _, _, _, hmk⟩ := h
  exact mkDate_valid hmk

theorem fmt_nameDY_valid {names : List (String × Nat)} {cs : List Char} {dt : Date}
    (h : fmt_nameDY names cs = some dt) : ValidDate dt := by
  simp only [fmt_nameDY, Option.bind_eq_some] at h
  obtain ⟨_, _, _, _, _, _, _, _, _, _, _, _, _, _, hmk⟩ := h
  exact mkDate_valid hmk

theorem fmt_Ymd_valid {cs : List Char} {dt : Date} (h : fmt_Ymd cs = some dt) :
    ValidDate dt := by
  simp only [fmt_Ymd, Option.bind_eq_some] at h
  obtain ⟨_, _, _, _, _, _, _, _, _, _, _, _, hmk⟩ := h
  exact mkDate_valid hmk

theorem fmt_mdy_valid {cs : List Char} {dt : Date} (h : fmt_mdy cs = some dt) :
    ValidDate dt := by
  simp only [fmt_mdy, Option.bind_eq_some] at h
  obtain ⟨_, _, _, _, _, _, _, _, _, _, _, _, hmk⟩ := h
  exact mkDate_valid hmk

theorem fmt_mdY_time_valid {sp : Bool} {cs : List Char} {dt : Date}
    (h : fmt_mdY_time sp cs = some dt) : ValidDate dt := by
  simp only [fmt_mdY_time, Option.bind_eq_some] at h
  obtain ⟨_, _, _, _, _, _, _, _, _, _, _, _, _, _, _, _, _, _, _, _, _, _, _,
    _, hmk⟩ := h
  exact mkDate_valid hmk

theorem orElse_some {α : Type} {a b : Option α} {c : α}
    (h : (a <|> b) = some c) : a = some c ∨ b = some c := by
  cases a with
  | none => right; simpa [HOrElse.hOrElse, OrElse.orElse, Option.orElse] using h
  | some v => left; simpa [HOrElse.hOrElse, OrElse.orElse, Option.orElse] using h

theorem tryFormats_valid {cs : List Char} {dt : Date}
    (h : tryFormats cs = some dt) : ValidDate dt := by
  rw [tryFormats] at h
  rcases orElse_some h with h | h
  · exact fmt_mdY_valid h
  rcases orElse_some h with h | h
  · exact fmt_m_d_Y_valid h
  rcases orElse_some h with h | h
  · exact fmt_nameDY_valid h
  rcases orElse_some h with h | h
  · exact fmt_nameDY_valid h
  rcases orElse_some h with h | h
  · exact fmt_Ymd_valid h
  rcases orElse_some h with h | h
  · exact fmt_mdy_valid h
  rcases orElse_some h with h | h
  · exact fmt_mdY_time_valid h
  · exact fmt_mdY_time_valid h

theorem parse_date_canonical {s out : String} (h : parse_date s = some out) :
    ∃ dt, ValidDate dt ∧ out = fmtISO dt ∧ strptime_Ymd out = some dt := by
  rw [parse_date, Option.map_eq_some'] at h
  obtain ⟨dt, hdt, hout⟩ := h
  have hv := tryFormats_valid hdt
  exact ⟨dt, hv, hout.symm, hout ▸ strptime_fmtISO hv⟩

theorem fmtISO_ne_empty (dt : Date) : fmtISO dt ≠ "" := by
  rw [fmtISO, padNum4]
  intro h
  have : (String.mk _).data = ("" : String).data := congrArg String.data h
  simp at this

/-- On a canonical rendering, the future test is exactly a strict comparison
of the date's midnight with the run instant. -/
theorem is_future_canonical (now : Int) {dt : Date} (h : ValidDate dt) :
    is_future now (some (fmtISO dt)) = decide (dateSec dt > now) := by
  rw [is_future, if_neg (fmtISO_ne_empty dt), strptime_fmtISO h]

/-! ## The pre-aggregation record invariant

Every record handed to the reclassification step has status `open`, and any
deadline that re-parses under `"%Y-%m-%d"` is strictly in the future (it was
admitted through `is_future` at extraction time). -/

def GoodBid (now : Int) (b : Bid) : Prop :=
  b.status = "open" ∧
  ∀ dt, strptime_Ymd b.deadline = some dt → dateSec dt > now

theorem goodBid_of_unparseable {now : Int} {b : Bid} (hst : b.status = "open")
    (hdl : strptime_Ymd b.deadline = none) : GoodBid now b :=
  ⟨hst, fun _ hdt => by rw [hdl] at hdt; cases hdt⟩

theorem future_of_parse {now : Int} {s d : String}
    (hp : parse_date s = some d) (hf : is_future now (some d) = true) :
    ∀ dt, strptime_Ymd d = some dt → dateSec dt > now := by
  obtain ⟨dt0, hv, rfl, hstr⟩ := parse_date_canonical hp
  rw [is_future_canonical now hv] at hf
  intro dt hdt
  rw [hstr] at hdt
  cases hdt
  simpa using hf

theorem strptime_TBD : strptime_Ymd "TBD" = none := rfl

theorem strptime_Varies : strptime_Ymd "Varies" = none := rfl

theorem strptime_SeeDocument : strptime_Ymd "See Document" = none := rfl

theorem strptime_SeeSchedule : strptime_Ymd "See Schedule" = none := rfl

theorem umich_row_good {now : Int} {today : String} {row : Row} {b : Bid}
    (h : umich_row now today row = some b) : GoodBid now b := by
  simp only [umich_row] at h
  split at h
  case h_2 => cases h
  case h_1 c0 c1 tail heq =>
    rw [heq] at h
    split at h
    case isTrue => cases h
    case isFalse =>
      split at h
      case isTrue => cases h
      case isFalse =>
        split at h
        case isFalse => cases h
        case isTrue hfut =>
          cases h
          constructor
          · rfl
          · cases hp : parse_date ((Option.map Cell.text (c0 :: c1 :: tail).getLast?).getD "") with
            | none =>
              intro dt hdt
              rw [show strptime_Ymd (pyOrOpt none "TBD") = none from rfl] at hdt
              cases hdt
            | some d =>
              rw [hp] at hfut
              obtain ⟨dt0, hv, hdres, _⟩ := parse_date_canonical hp
              have hne : d ≠ "" := by rw [hdres]; exact fmtISO_ne_empty dt0
              have hpy : pyOrOpt (some d) "TBD" = d := by simp [pyOrOpt, hne]
              intro dt hdt
              rw [hpy] at hdt
              exact future_of_parse hp hfut dt hdt

theorem mdot_row_good {now : Int} {today : String} {row : Row} {b : Bid}
    (h : mdot_row now today row = some b) : GoodBid now b := by
  simp only [mdot_row] at h
  split at h
  case h_2 => cases h
  case h_1 c0 c1 tail heq =>
    rw [heq] at h
    split at h
    case isFalse => cases h
    case isTrue =>
      cases h
      constructor
      · rfl
      · cases hp : firstDeadline now (c0 :: c1 :: tail) with
        | none =>
          intro dt hdt
          rw [show strptime_Ymd (pyOrOpt none "Varies") = none from rfl] at hdt
          cases hdt
        | some d =>
          rw [firstDeadline] at hp
          obtain ⟨c, _, hc⟩ := List.exists_of_findSome?_eq_some hp
          intro dt hdt
          split at hc
          next d0 hpc =>
            split at hc
            next hcond =>
              injection hc with hc
              subst hc
              have hpy : pyOrOpt (some d0) "Varies" = d0 := by
                simp [pyOrOpt, hcond.1]
              rw [hpy] at hdt
              exact future_of_parse hpc hcond.2 dt hdt
            next => cases hc
          next => cases hc

theorem ofcc_link_good {now : Int} {today : String} {l : Link} {b : Bid}
    (h : ofcc_link today l = some b) : GoodBid now b := by
  simp only [ofcc_link] at h
  split at h
  case isFalse => cases h
  case isTrue =>
    cases h
    exact goodBid_of_unparseable rfl strptime_SeeDocument

theorem ofcc_row_good {now : Int} {today : String} {row : Row} {b : Bid}
    (h : ofcc_row today row = some b) : GoodBid now b := by
  simp only [ofcc_row] at h
  split at h
  case h_2 => cases h
  case h_1 c0 c1 tail heq =>
    split at h
    case isFalse => cases h
    case isTrue =>
      cases h
      exact goodBid_of_unparseable rfl strptime_SeeDocument

theorem odot_link_good {now : Int} {today : String} {l : Link} {b : Bid}
    (h : odot_link today l = some b) : GoodBid now b := by
  simp only [odot_link] at h
  split at h
  case isFalse => cases h
  case isTrue =>
    cases h
    exact goodBid_of_unparseable rfl strptime_SeeSchedule

theorem goodBid_umich {now : Int} {today : String} {u : Option (List Table)}
    {b : Bid} (h : b ∈ scrape_umich now today u) : GoodBid now b := by
  cases u with
  | none => cases h
  | some tables =>
    rw [scrape_umich, List.mem_flatMap] at h
    obtain ⟨t, _, ht⟩ := h
    obtain ⟨row, _, hrow⟩ := List.mem_filterMap.mp ht
    exact umich_row_good hrow

theorem goodBid_mdot {now : Int} {today : String} {m : Option (List Table)}
    {b : Bid} (h : b ∈ scrape_mdot_lettings now today m) : GoodBid now b := by
  cases m with
  | none =>
    rw [scrape_mdot_lettings, List.mem_singleton] at h
    cases h
    exact goodBid_of_unparseable rfl strptime_Varies
  | some tables =>
    rw [scrape_mdot_lettings] at h
    split at h
    · rw [List.mem_singleton] at h
      cases h
      exact goodBid_of_unparseable rfl strptime_Varies
    · rw [List.mem_flatMap] at h
      obtain ⟨t, _, ht⟩ := h
      obtain ⟨row, _, hrow⟩ := List.mem_filterMap.mp ht
      exact mdot_row_good hrow

theorem goodBid_ofcc {now : Int} {today : String} {o1 : Option (List Link)}
    {o2 : Option (List Table)} {b : Bid} (h : b ∈ scrape_ofcc_ohio today o1 o2) :
    GoodBid now b := by
  cases o1 with
  | none => cases h
  | some links =>
    simp only [scrape_ofcc_ohio] at h
    rcases List.mem_append.mp h with h | h
    · obtain ⟨l, _, hl⟩ := List.mem_filterMap.mp h
      exact ofcc_link_good hl
    · cases o2 with
      | none => cases h
      | some tables =>
        rw [List.mem_flatMap] at h
        obtain ⟨t, _, ht⟩ := h
        obtain ⟨row, _, hrow⟩ := List.mem_filterMap.mp ht
        exact ofcc_row_good hrow

theorem goodBid_odot {now : Int} {today : String} {od : Option (List Link)}
    {b : Bid} (h : b ∈ scrape_odot today od) : GoodBid now b := by
  cases od with
  | none =>
    rw [scrape_odot, List.mem_singleton] at h
    cases h
    exact goodBid_of_unparseable rfl strptime_Varies
  | some links =>
    rw [scrape_odot] at h
    split at h
    · rw [List.mem_singleton] at h
      cases h
      exact goodBid_of_unparseable rfl strptime_Varies
    · obtain ⟨l, _, hl⟩ := List.mem_filterMap.mp h
      exact odot_link_good hl

theorem goodBid_standing {now : Int} {today : String} {b : Bid}
    (h : b ∈ get_standing_entries today) : GoodBid now b := by
  rw [get_standing_entries] at h
  fin_cases h <;> exact goodBid_of_unparseable rfl strptime_Varies

/-! ## Status reclassification -/

theorem daysUntil_nonneg {now : Int} {dt : Date} (h : dateSec dt > now) :
    0 ≤ daysUntil now dt := by
  rw [daysUntil]
  exact Int.fdiv_nonneg (by omega) (by norm_num)

theorem markClosing_deadline (now : Int) (b : Bid) :
    (markClosing now b).deadline = b.deadline := by
  rw [markClosing]
  split
  · rfl
  · split
    · rfl
    · split <;> rfl

theorem markClosing_spec {now : Int} {b : Bid} (hb : GoodBid now b) :
    ((markClosing now b).status = "closing" ↔
      ((markClosing now b).deadline ∉ sentinels ∧
        ∃ dt, strptime_Ymd (markClosing now b).deadline = some dt ∧
          0 ≤ daysUntil now dt ∧ daysUntil now dt ≤ 14)) ∧
    ((markClosing now b).deadline ∈ sentinels →
      (markClosing now b).status = "open") := by
  obtain ⟨hst, hfut⟩ := hb
  rw [markClosing_deadline]
  unfold markClosing
  split
  next hs =>
    refine ⟨?_, fun _ => hst⟩
    rw [hst]
    constructor
    · intro h
      exact absurd h (by decide)
    · rintro ⟨hns, -⟩
      exact absurd hs hns
  next hs =>
    split
    next hnone =>
      refine ⟨?_, fun hmem => absurd hmem hs⟩
      rw [hst]
      constructor
      · intro h
        exact absurd h (by decide)
      · rintro ⟨-, dt, hdt, -⟩
        rw [hnone] at hdt
        cases hdt
    next dt hdt =>
      split
      next hle =>
        refine ⟨?_, fun hmem => absurd hmem hs⟩
        constructor
        · intro _
          exact ⟨hs, dt, hdt, daysUntil_nonneg (hfut dt hdt), hle⟩
        · intro _
          rfl
      next hgt =>
        refine ⟨?_, fun hmem => absurd hmem hs⟩
        rw [hst]
        constructor
        · intro h
          exact absurd h (by decide)
        · rintro ⟨-, dt2, hdt2, -, hle2⟩
          rw [hdt] at hdt2
          cases hdt2
          exact absurd hle2 hgt

/-- C5: after the status-reclassification step, a record of the feed has
status closing exactly when its deadline is a non-sentinel string that
re-parses as a calendar date lying 0 to 14 floored days from the run time;
records with sentinel deadlines keep status open. -/
theorem C5_closing_status (now : Int) (ts today : String)
    (u : Option (List Table)) (m : Option (List Table)) (o1 : Option (List Link))
    (o2 : Option (List Table)) (od : Option (List Link)) (b : Bid)
    (hb : b ∈ (main_feed now ts today u m o1 o2 od).bids) :
    (b.status = "closing" ↔
      (b.deadline ∉ sentinels ∧
        ∃ dt, strptime_Ymd b.deadline = some dt ∧
          0 ≤ daysUntil now dt ∧ daysUntil now dt ≤ 14)) ∧
    (b.deadline ∈ sentinels → b.status = "open") := by
  have hmem : b ∈ (scrape_umich now today u ++ scrape_mdot_lettings now today m ++
      scrape_ofcc_ohio today o1 o2 ++ scrape_odot today od ++
      get_standing_entries today).map (markClosing now) :=
    (dedupBids_sublist _).subset hb
  obtain ⟨b0, hb0, rfl⟩ := List.mem_map.mp hmem
  have hgood : GoodBid now b0 := by
    rcases List.mem_append.mp hb0 with h4 | hstand
    · rcases List.mem_append.mp h4 with h3 | hod
      · rcases List.mem_append.mp h3 with h2 | hof
        · rcases List.mem_append.mp h2 with hum | hmd
          · exact goodBid_umich hum
          · exact goodBid_mdot hmd
        · exact goodBid_ofcc hof
      · exact goodBid_odot hod
    · exact goodBid_standing hstand
  exact markClosing_spec hgood

/-- Witness for C5 at a concrete run: all fetches fail, and the first record
of the feed (the MDOT fetch fallback) has the sentinel deadline Varies and
status open. -/
theorem C5_closing_status_witness :
    ((mdot_fb_fetch "2026-02-03").status = "closing" ↔
      ((mdot_fb_fetch "2026-02-03").deadline ∉ sentinels ∧
        ∃ dt, strptime_Ymd (mdot_fb_fetch "2026-02-03").deadline = some dt ∧
          0 ≤ daysUntil 0 dt ∧ daysUntil 0 dt ≤ 14)) ∧
    ((mdot_fb_fetch "2026-02-03").deadline ∈ sentinels →
      (mdot_fb_fetch "2026-02-03").status = "open") :=
  C5_closing_status 0 "ts" "2026-02-03" none none none none none _ (by decide)

/-- C6: deduplication keys records by lowercased, whitespace-trimmed title
and keeps exactly the first occurrence of each normalized title in input
order; in particular a title differing only by case and trailing whitespace
is dropped in favour of the first-seen record. -/
theorem C6_dedup_by_normalized_title :
    (∀ l : List Bid, dedupBids l = specDedup l) ∧
    (∀ b1 b2 : Bid, b1.title = "Electrical Upgrade" →
      b2.title = "electrical upgrade " → dedupBids [b1, b2] = [b1]) := by
  constructor
  · exact dedupBids_eq_specDedup
  · intro b1 b2 h1 h2
    have hk : normTitle b2 = normTitle b1 := by
      rw [normTitle, normTitle, h1, h2]
      decide
    rw [dedupBids, dedupAux, if_neg (List.not_mem_nil _), dedupAux,
      if_pos (by rw [hk]; exact List.mem_singleton_self _), dedupAux]

/-- Witness for C6: two concrete records whose titles differ only in case and
trailing whitespace collapse to the first. -/
theorem C6_dedup_witness :
    dedupBids [{ mdot_fb_fetch "x" with title := "Electrical Upgrade" },
      { odot_fb_fetch "x" with title := "electrical upgrade " }] =
      [{ mdot_fb_fetch "x" with title := "Electrical Upgrade" }] :=
  C6_dedup_by_normalized_title.2 _ _ rfl rfl

/-- C8: the deduplication step is idempotent. -/
theorem C8_dedup_idempotent (l : List Bid) :
    dedupBids (dedupBids l) = dedupBids l := by
  rw [dedupBids_eq_specDedup, dedupBids_eq_specDedup, specDedup_idem]

/-- C10: deduplication preserves relative order — its output is a sublist of
its input, and the published bid sequence is a sublist of the reclassified
concatenation of the four extractor outputs and the standing entries. -/
theorem C10_dedup_preserves_order (l : List Bid) (now : Int) (ts today : String)
    (u : Option (List Table)) (m : Option (List Table)) (o1 : Option (List Link))
    (o2 : Option (List Table)) (od : Option (List Link)) :
    List.Sublist (dedupBids l) l ∧
    List.Sublist (main_feed now ts today u m o1 o2 od).bids
      ((scrape_umich now today u ++ scrape_mdot_lettings now today m ++
        scrape_ofcc_ohio today o1 o2 ++ scrape_odot today od ++
        get_standing_entries today).map (markClosing now)) :=
  ⟨dedupBids_sublist l, dedupBids_sublist _⟩

/-- C7: the future test keeps null and empty deadlines, keeps strings that do
not re-parse under the canonical format, and otherwise answers whether the
parsed date's midnight is strictly after the run instant — so it returns
false on the run day's own date. -/
theorem C7_is_future (now : Int) (s : String) :
    (is_future now none = true) ∧
    (is_future now (some "") = true) ∧
    (∀ dt, strptime_Ymd s = some dt →
      is_future now (some s) = decide (dateSec dt > now)) ∧
    (strptime_Ymd s = none → is_future now (some s) = true) ∧
    (∀ dt, strptime_Ymd s = some dt → dateSec dt ≤ now →
      is_future now (some s) = false) := by
  refine ⟨rfl, rfl, ?_, ?_, ?_⟩
  · intro dt hdt
    rw [is_future]
    split
    next hs =>
      rw [hs, show strptime_Ymd "" = none from rfl] at hdt
      cases hdt
    next => rw [hdt]
  · intro hnone
    rw [is_future]
    split
    next => rfl
    next => rw [hnone]
  · intro dt hdt hle
    rw [is_future]
    split
    next hs =>
      rw [hs, show strptime_Ymd "" = none from rfl] at hdt
      cases hdt
    next =>
      rw [hdt]
      simp only [decide_eq_false_iff_not]
      omega

/-- Witness for C7: at the epoch instant, the epoch's own date is not future
and an unparseable sentinel is kept. -/
theorem C7_is_future_witness :
    is_future 0 (some "1970-01-01") = false ∧ is_future 0 (some "TBD") = true :=
  ⟨(C7_is_future 0 "1970-01-01").2.2.2.2 ⟨1970, 1, 1⟩ (by decide) (by decide),
   (C7_is_future 0 "TBD").2.2.2.1 (by decide)⟩

/-- C9: the standing-entries provider returns exactly six records, three per
state, all open with the Varies sentinel deadline and every field populated
(non-empty strings, positive value estimate) whenever the run-day string is
non-empty. -/
theorem C9_standing_entries (today : String) (h : today ≠ "") :
    (get_standing_entries today).length = 6 ∧
    ((get_standing_entries today).filter (fun b => decide (b.state = "MI"))).length = 3 ∧
    ((get_standing_entries today).filter (fun b => decide (b.state = "OH"))).length = 3 ∧
    (∀ b ∈ get_standing_entries today, b.status = "open" ∧ b.deadline = "Varies" ∧
      b.title ≠ "" ∧ b.sub ≠ "" ∧ b.location ≠ "" ∧ b.state ≠ "" ∧ b.value ≠ "" ∧
      0 < b.valueSortable ∧ b.posted ≠ "" ∧ b.source ≠ "" ∧ b.url ≠ "" ∧
      b.drawings ≠ "" ∧ b.drawingsNote ≠ "") := by
  refine ⟨rfl, rfl, rfl, ?_⟩
  intro b hb
  fin_cases hb <;>
    (dsimp only;
     exact ⟨rfl, rfl, by decide, by decide, by decide, by decide, by decide,
       by decide, h, by decide, by decide, by decide, by decide⟩)

/-- Witness for C9 at a concrete run day. -/
theorem C9_standing_entries_witness :
    (get_standing_entries "2026-02-03").length = 6 ∧
    ((get_standing_entries "2026-02-03").filter
      (fun b => decide (b.state = "MI"))).length = 3 ∧
    ((get_standing_entries "2026-02-03").filter
      (fun b => decide (b.state = "OH"))).length = 3 ∧
    (∀ b ∈ get_standing_entries "2026-02-03", b.status = "open" ∧
      b.deadline = "Varies" ∧
      b.title ≠ "" ∧ b.sub ≠ "" ∧ b.location ≠ "" ∧ b.state ≠ "" ∧ b.value ≠ "" ∧
      0 < b.valueSortable ∧ b.posted ≠ "" ∧ b.source ≠ "" ∧ b.url ≠ "" ∧
      b.drawings ≠ "" ∧ b.drawingsNote ≠ "") :=
  C9_standing_entries "2026-02-03" (by decide)

/-- C4 counterexample: the bid dicts carry the key sub, not the data-model
section's subtitle. -/
theorem C4_counterexample :
    "subtitle" ∉ ((mdot_fb_fetch "2026-02-03").toJson.map Prod.fst) ∧
    "sub" ∈ ((mdot_fb_fetch "2026-02-03").toJson.map Prod.fst) := by
  constructor
  · decide
  · decide

/-- C4 (amended): the artifact has exactly the three top-level keys, the
fixed 11-label source list independent of any fetch outcome, and each bid
object exactly the thirteen keys of the source's dicts, with sub as the
second key. -/
theorem C4_output_shape (now : Int) (ts today : String) (u : Option (List Table))
    (m : Option (List Table)) (o1 : Option (List Link)) (o2 : Option (List Table))
    (od : Option (List Link)) (b : Bid) :
    ((main_feed now ts today u m o1 o2 od).toJson.map Prod.fst =
      ["last_updated", "sources_checked", "bids"]) ∧
    (main_feed now ts today u m o1 o2 od).sources_checked = sources_checked_list ∧
    sources_checked_list.length = 11 ∧
    (b.toJson.map Prod.fst =
      ["title", "sub", "location", "state", "status", "deadline", "value",
       "valueSortable", "posted", "source", "url", "drawings", "drawingsNote"]) :=
  ⟨rfl, rfl, rfl, rfl⟩

/-- C1 counterexample: on a failed fetch, the U-M and OFCC extractors return
the empty list, not a one-record fallback. -/
theorem C1_counterexample :
    scrape_umich 0 "2026-02-03" none = [] ∧
    scrape_ofcc_ohio "2026-02-03" none none = [] :=
  ⟨rfl, rfl⟩

/-- C1 (amended): the MDOT and ODOT extractors degrade to exactly one static
fallback record when the fetch fails or no structural unit matches, while the
U-M and OFCC extractors return the empty list in both situations. -/
theorem C1_fallback_behavior (now : Int) (today : String) :
    (scrape_mdot_lettings now today none = [mdot_fb_fetch today]) ∧
    (∀ tables : List Table,
      tables.flatMap (fun t => t.filterMap (mdot_row now today)) = [] →
      scrape_mdot_lettings now today (some tables) = [mdot_fb_empty today]) ∧
    (scrape_odot today none = [odot_fb_fetch today]) ∧
    (∀ links : List Link, links.filterMap (odot_link today) = [] →
      scrape_odot today (some links) = [odot_fb_empty today]) ∧
    (scrape_umich now today none = []) ∧
    (∀ tables : List Table,
      tables.flatMap (fun t => t.filterMap (umich_row now today)) = [] →
      scrape_umich now today (some tables) = []) ∧
    (∀ o2 : Option (List Table), scrape_ofcc_ohio today none o2 = []) ∧
    (∀ (links : List Link) (tables : List Table),
      links.filterMap (ofcc_link today) = [] →
      tables.flatMap (fun t => (t.drop 1).filterMap (ofcc_row today)) = [] →
      scrape_ofcc_ohio today (some links) (some tables) = []) := by
  refine ⟨rfl, ?_, rfl, ?_, rfl, ?_, fun o2 => rfl, ?_⟩
  · intro tables h
    simp [scrape_mdot_lettings, h]
  · intro links h
    simp [scrape_odot, h]
  · intro tables h
    simp [scrape_umich, h]
  · intro links tables h1 h2
    simp only [scrape_ofcc_ohio, h1]
    simpa using h2

/-- Witness for C1 at concrete empty contents: each extractor's zero-unit
branch behaves as the amended claim states. -/
theorem C1_fallback_behavior_witness :
    scrape_mdot_lettings 0 "2026-02-03" (some []) = [mdot_fb_empty "2026-02-03"] ∧
    scrape_odot "2026-02-03" (some []) = [odot_fb_empty "2026-02-03"] ∧
    scrape_umich 0 "2026-02-03" (some []) = [] ∧
    scrape_ofcc_ohio "2026-02-03" (some []) (some []) = [] :=
  ⟨(C1_fallback_behavior 0 "2026-02-03").2.1 [] rfl,
   (C1_fallback_behavior 0 "2026-02-03").2.2.2.1 [] rfl,
   (C1_fallback_behavior 0 "2026-02-03").2.2.2.2.2.1 [] rfl,
   (C1_fallback_behavior 0 "2026-02-03").2.2.2.2.2.2.2 [] [] rfl rfl⟩

/-! ## Title bounds -/

theorem pySlice_length_le (s : String) (n : Nat) : (pySlice s n).length ≤ n := by
  show (s.data.take n).length ≤ n
  exact List.length_take_le _ _

theorem pySlice_ne_empty {s : String} (hs : s ≠ "") (n : Nat) (hn : 0 < n) :
    pySlice s n ≠ "" := by
  intro h
  have hdata : s.data.take n = [] := congrArg String.data h
  rcases List.take_eq_nil_iff.mp hdata with h1 | h1
  · omega
  · exact hs (by cases s with | mk data => cases h1; rfl)

theorem mdot_row_title {now : Int} {today : String} {row : Row} {b : Bid}
    (h : mdot_row now today row = some b) : b.title.length ≤ 100 := by
  simp only [mdot_row] at h
  split at h
  case h_2 => cases h
  case h_1 c0 c1 tail heq =>
    split at h
    case isFalse => cases h
    case isTrue =>
      cases h
      exact pySlice_length_le _ _

theorem ofcc_link_title {today : String} {l : Link} {b : Bid}
    (h : ofcc_link today l = some b) : b.title ≠ "" ∧ b.title.length ≤ 120 := by
  simp only [ofcc_link] at h
  split at h
  case isFalse => cases h
  case isTrue =>
    cases h
    dsimp only
    rw [pyOrS]
    split
    next => exact ⟨by decide, by decide⟩
    next hne => exact ⟨hne, pySlice_length_le _ _⟩

theorem ofcc_row_title {today : String} {row : Row} {b : Bid}
    (h : ofcc_row today row = some b) : b.title ≠ "" ∧ b.title.length ≤ 120 := by
  simp only [ofcc_row] at h
  split at h
  case h_2 => cases h
  case h_1 c0 c1 tail heq =>
    split at h
    case isFalse => cases h
    case isTrue hcond =>
      cases h
      dsimp only
      exact ⟨pySlice_ne_empty hcond.1 120 (by omega), pySlice_length_le _ _⟩

theorem odot_link_title {today : String} {l : Link} {b : Bid}
    (h : odot_link today l = some b) : b.title ≠ "" ∧ b.title.length ≤ 120 := by
  simp only [odot_link] at h
  split at h
  case isFalse => cases h
  case isTrue =>
    cases h
    dsimp only
    have h15 : ("ODOT Letting — " : String).length = 15 := rfl
    have hsl := pySlice_length_le l.text 80
    constructor
    · intro he
      have h0 := congrArg String.length he
      rw [String.length_append] at h0
      have : ("" : String).length = 0 := rfl
      omega
    · rw [String.length_append]
      omega

/-- C3 counterexample: the U-M extractor stores extracted titles without
truncation, so a 121-character cell text yields a 121-character title; and
the MDOT extractor can emit an empty title when the first data cell is empty
but a keyword appears elsewhere in the row. -/
theorem C3_counterexample :
    ((scrape_umich 0 "2026-02-03"
      (some [[[⟨"td", String.mk (List.replicate 121 'a')⟩, ⟨"td", "TBD"⟩]]])).map
        (fun b => b.title.length)) = [121] ∧
    ((scrape_mdot_lettings 0 "2026-02-03"
      (some [[[⟨"td", ""⟩, ⟨"td", "Traffic signals"⟩]]])).map Bid.title) = [""] := by
  constructor
  · decide
  · decide

/-- C3 (amended): every MDOT-extracted record's title is at most 100
characters (though it can be empty); every OFCC and ODOT record, and every
standing entry, has a non-empty title of at most 120 characters; U-M titles
are stored untruncated and carry no bound. -/
theorem C3_title_bounds (now : Int) (today : String) (m : Option (List Table))
    (o1 : Option (List Link)) (o2 : Option (List Table)) (od : Option (List Link)) :
    (∀ b ∈ scrape_mdot_lettings now today m, b.title.length ≤ 100) ∧
    (∀ b ∈ scrape_ofcc_ohio today o1 o2, b.title ≠ "" ∧ b.title.length ≤ 120) ∧
    (∀ b ∈ scrape_odot today od, b.title ≠ "" ∧ b.title.length ≤ 120) ∧
    (∀ b ∈ get_standing_entries today, b.title ≠ "" ∧ b.title.length ≤ 120) := by
  refine ⟨?_, ?_, ?_, ?_⟩
  · intro b hb
    cases m with
    | none =>
      rw [scrape_mdot_lettings, List.mem_singleton] at hb
      subst hb
      dsimp only [mdot_fb_fetch]
      decide
    | some tables =>
      rw [scrape_mdot_lettings] at hb
      split at hb
      · rw [List.mem_singleton] at hb
        subst hb
        dsimp only [mdot_fb_empty]
        decide
      · rw [List.mem_flatMap] at hb
        obtain ⟨t, _, ht⟩ := hb
        obtain ⟨row, _, hrow⟩ := List.mem_filterMap.mp ht
        exact mdot_row_title hrow
  · intro b hb
    cases o1 with
    | none => cases hb
    | some links =>
      simp only [scrape_ofcc_ohio] at hb
      rcases List.mem_append.mp hb with hb | hb
      · obtain ⟨l, _, hl⟩ := List.mem_filterMap.mp hb
        exact ofcc_link_title hl
      · cases o2 with
        | none => cases hb
        | some tables =>
          rw [List.mem_flatMap] at hb
          obtain ⟨t, _, ht⟩ := hb
          obtain ⟨row, _, hrow⟩ := List.mem_filterMap.mp ht
          exact ofcc_row_title hrow
  · intro b hb
    cases od with
    | none =>
      rw [scrape_odot, List.mem_singleton] at hb
      subst hb
      dsimp only [odot_fb_fetch]
      exact ⟨by decide, by decide⟩
    | some links =>
      rw [scrape_odot] at hb
      split at hb
      · rw [List.mem_singleton] at hb
        subst hb
        dsimp only [odot_fb_empty]
        exact ⟨by decide, by decide⟩
      · obtain ⟨l, _, hl⟩ := List.mem_filterMap.mp hb
        exact odot_link_title hl
  · intro b hb
    fin_cases hb <;> (dsimp only; exact ⟨by decide, by decide⟩)

/-! ## Keyword filtering -/

/-- The structural acceptance conditions of the U-M row loop: at least two
cells, a non-empty primary text that is not the header label, no awarded
marker in the row text, and a future-or-unknown deadline parsed from the last
cell.  No keyword condition appears: the source's electrical keyword list is
never consulted. -/
def umichStructOk (now : Int) (row : Row) : Prop :=
  let cells := row.filter (fun c => c.tag = "td" ∨ c.tag = "th")
  let text := ((cells.head?).map Cell.text).getD ""
  2 ≤ cells.length ∧ text ≠ "" ∧
  ¬(strContains text "Project" = true ∧ strContains text "Name" = true) ∧
  strContains (pyLower (rowFullText "" row)) "awarded" = false ∧
  is_future now (parse_date ((cells.getLast?.map Cell.text).getD "")) = true

theorem umich_row_iff (now : Int) (today : String) (row : Row) :
    (umich_row now today row).isSome = true ↔ umichStructOk now row := by
  simp only [umich_row, umichStructOk]
  cases hc : row.filter (fun c => c.tag = "td" ∨ c.tag = "th") with
  | nil => simp
  | cons c0 rest =>
    cases rest with
    | nil => simp
    | cons c1 tail =>
      dsimp only
      simp only [List.head?_cons, Option.map_some', Option.getD_some,
        List.length_cons]
      constructor
      · intro hsome
        by_cases hA : c0.text = "" ∨
            (strContains c0.text "Project" = true ∧ strContains c0.text "Name" = true)
        · rw [if_pos hA] at hsome
          simp at hsome
        · rw [if_neg hA] at hsome
          by_cases hB : strContains (pyLower (rowFullText "" row)) "awarded" = true
          · rw [if_pos hB] at hsome
            simp at hsome
          · rw [if_neg hB] at hsome
            by_cases hF : is_future now
                (parse_date ((Option.map Cell.text (c0 :: c1 :: tail).getLast?).getD "")) = true
            · push_neg at hA
              refine ⟨by omega, hA.1, ?_, ?_, hF⟩
              · intro hpn
                exact hA.2 hpn.1 hpn.2
              · simpa using hB
            · rw [if_neg hF] at hsome
              simp at hsome
      · rintro ⟨-, hTxt, hPN, hAw, hFut⟩
        rw [if_neg (by push_neg; exact ⟨hTxt, fun hp hn => hPN ⟨hp, hn⟩⟩),
          if_neg (by simp [hAw]), if_pos hFut]
        rfl

theorem mdot_row_none_of_no_keyword {now : Int} {today : String} {row : Row}
    (h : (mdot_keywords.any fun kw =>
      strContains (pyLower (rowFullText " " row)) kw) = false) :
    mdot_row now today row = none := by
  simp only [mdot_row]
  split
  next c0 c1 tail heq => rw [if_neg (by simp [h])]
  next => rfl

theorem odot_link_none_of_no_keyword {today : String} {l : Link}
    (h : (odot_keywords.any fun kw => strContains (pyLower l.text) kw) = false) :
    odot_link today l = none := by
  simp only [odot_link]
  rw [if_neg (by simp [h])]

/-- C2 counterexample: a row whose primary text is non-empty, is no header
label, carries no awarded marker and has an unknown deadline — so it passes
every structural rejection rule — is dropped by the MDOT extractor because
its text matches none of the electrical keywords; only the static fallback is
emitted and no record carries the row's title. -/
theorem C2_counterexample :
    ((scrape_mdot_lettings 0 "2026-02-03"
      (some [[[⟨"td", "Bridge Replacement Project"⟩, ⟨"td", "TBD"⟩]]])).map
        Bid.title) =
      ["MDOT 2026 Signalization & Electrical — Statewide Lettings"] ∧
    ∀ b ∈ scrape_mdot_lettings 0 "2026-02-03"
      (some [[[⟨"td", "Bridge Replacement Project"⟩, ⟨"td", "TBD"⟩]]]),
      b.title ≠ "Bridge Replacement Project" := by
  constructor
  · decide
  · decide

/-- C2 (amended): the U-M extractor admits a row exactly when the structural
rules pass, independent of any keyword (its keyword list is unused); but the
MDOT extractor drops every row whose space-joined lowercased text contains
none of its six keywords, and the ODOT extractor drops every anchor whose
lowercased text contains none of its three keywords. -/
theorem C2_keyword_filtering (now : Int) (today : String) :
    (∀ row : Row, (umich_row now today row).isSome = true ↔ umichStructOk now row) ∧
    (∀ row : Row,
      (mdot_keywords.any fun kw =>
        strContains (pyLower (rowFullText " " row)) kw) = false →
      mdot_row now today row = none) ∧
    (∀ l : Link,
      (odot_keywords.any fun kw => strContains (pyLower l.text) kw) = false →
      odot_link today l = none) :=
  ⟨umich_row_iff now today, fun _ h => mdot_row_none_of_no_keyword h,
   fun _ h => odot_link_none_of_no_keyword h⟩

/-- Witness for C2: a keyword-free table row and a keyword-free anchor are
dropped by the MDOT and ODOT extractors. -/
theorem C2_keyword_filtering_witness :
    mdot_row 0 "2026-02-03" [⟨"td", "Bridge Replacement Project"⟩, ⟨"td", "TBD"⟩] =
      none ∧
    odot_link "2026-02-03" ⟨"h", "Some page"⟩ = none :=
  ⟨(C2_keyword_filtering 0 "2026-02-03").2.1 _ (by decide),
   (C2_keyword_filtering 0 "2026-02-03").2.2 _ (by decide)⟩

/-- Witness for C3 at a concrete failed-fetch run: the MDOT fallback's title
obeys the bound. -/
theorem C3_title_bounds_witness :
    (mdot_fb_fetch "2026-02-03").title.length ≤ 100 :=
  (C3_title_bounds 0 "2026-02-03" none none none none).1 _ (by decide)
